import Mathlib

/-!
Verification of the YYDB storage-engine bridge (src/src/bridge.cc) and of the
engine core behind it.  The bridge forwards host calls to the Rust engine
functions `rust_init`, `rust_deinit`, `open_table`, `close_table`,
`insert_row` and `mysql_log_write_raw`; those Rust functions are not part of
the visible sources, so they are modelled here from the specification
(sections 4 to 7), while the bridge functions themselves are shallow
embeddings of the C++ code.  Bytes are modelled as natural numbers, byte
buffers as lists, and the process-wide engine state as an explicit record
threaded through every operation.
-/

/-- Severity levels of log records, ordered trace < debug < info < warn < error. -/
inductive Severity
  | trace
  | debug
  | info
  | warn
  | error
deriving DecidableEq

/-- Error kinds of the engine, from the error-handling design of the spec. -/
inductive ErrKind
  | UnknownHandle
  | InvalidRow
  | StorageFailure
  | ResourceExhausted
  | AlreadyOpenConflict
  | AlreadyInit
  | NotRunning
  | InitFailure
deriving DecidableEq

/-- Lifecycle states of the engine.  The two transient states of the spec
(mid-init and mid-deinit) are omitted: every transition is atomic in this
sequential embedding, so only the stable states are observable. -/
inductive Lifecycle
  | Uninit
  | Running
  | Shutdown
deriving DecidableEq

/-- Per-table mutable state: the identifying name and the rows accepted so
far, each row an immutable byte sequence, in append order. -/
structure TableState where
  name : String
  rows : List (List Nat)
deriving DecidableEq

/-- Process-wide engine state: lifecycle phase, the next fresh table handle,
the table registry (handle to table state), the log records emitted so far,
and the configured maximum row length. -/
structure Engine where
  lifecycle : Lifecycle
  nextHandle : Nat
  tables : List (Nat × TableState)
  log : List (Severity × String)
  maxRowLen : Nat
deriving DecidableEq

/-- Human-readable message attached to a logged failure. -/
def errMsg : ErrKind → String
  | ErrKind.UnknownHandle => "unknown handle"
  | ErrKind.InvalidRow => "invalid row"
  | ErrKind.StorageFailure => "storage failure"
  | ErrKind.ResourceExhausted => "resource exhausted"
  | ErrKind.AlreadyOpenConflict => "already open conflict"
  | ErrKind.AlreadyInit => "already initialized"
  | ErrKind.NotRunning => "not running"
  | ErrKind.InitFailure => "subsystem construction failed"

/-- Append one failure record to the engine log at the given severity. -/
def logFail (e : Engine) (sev : Severity) (k : ErrKind) : Engine :=
  { e with log := e.log ++ [(sev, errMsg k)] }

/-- Registry lookup: the table state registered under handle `h`, if any. -/
def lookupTable (e : Engine) (h : Nat) : Option TableState :=
  (e.tables.find? (fun p => p.fst == h)).map (fun p => p.snd)

/-- Replace the registry entry for handle `h` by the given table state. -/
def updateTable (tbl : List (Nat × TableState)) (h : Nat) (ts : TableState) :
    List (Nat × TableState) :=
  tbl.map (fun p => if p.fst == h then (h, ts) else p)

/-- Modelled from the spec: the Rust engine function `rust_init` (declared in
bridge.rs.h, implementation not in the visible sources).  The result type
records success or failure: init succeeds only from the Uninit state and when
subsystem construction succeeds (the environment input `ok`); on failure the
state is left Uninit (rollback, not half-initialised). -/
def rustInitCore (ok : Bool) (e : Engine) : Except ErrKind Engine :=
  if e.lifecycle = Lifecycle.Uninit then
    if ok then Except.ok { e with lifecycle := Lifecycle.Running }
    else Except.error ErrKind.InitFailure
  else Except.error ErrKind.AlreadyInit

/-- Modelled from the spec: the void-returning face of `rust_init` that the
bridge actually calls; a failure leaves the state unchanged and is logged. -/
def rustInit (ok : Bool) (e : Engine) : Engine :=
  match rustInitCore ok e with
  | Except.ok e' => e'
  | Except.error k => logFail e Severity.error k

/-- Modelled from the spec: the Rust engine function `rust_deinit`
(implementation not in the visible sources).  Deinit succeeds only from the
Running state; it force-closes every table still open, logging a warning per
forced close. -/
def rustDeinitCore (e : Engine) : Except ErrKind Engine :=
  if e.lifecycle = Lifecycle.Running then
    Except.ok { e with
      lifecycle := Lifecycle.Shutdown
      tables := []
      log := e.log ++ e.tables.map
        (fun t => (Severity.warn, "forced close of table " ++ t.snd.name)) }
  else Except.error ErrKind.NotRunning

/-- Modelled from the spec: the void-returning face of `rust_deinit`; a
failure leaves the state unchanged and is logged. -/
def rustDeinit (e : Engine) : Engine :=
  match rustDeinitCore e with
  | Except.ok e' => e'
  | Except.error k => logFail e Severity.error k

/-- Modelled from the spec: the Rust engine function `open_table`
(implementation not in the visible sources).  Allocates a fresh handle from
the monotonically increasing counter and registers empty table state. -/
def openTableCore (e : Engine) (name : String) : Nat × Engine :=
  (e.nextHandle,
   { e with
     nextHandle := e.nextHandle + 1
     tables := e.tables ++ [(e.nextHandle, { name := name, rows := [] })] })

/-- Modelled from the spec: the result-typed core of the Rust engine function
`close_table` (implementation not in the visible sources).  Removes the
registry entry for an open handle; fails with UnknownHandle otherwise. -/
def closeTableCore (e : Engine) (h : Nat) : Except ErrKind Engine :=
  if (lookupTable e h).isSome then
    Except.ok { e with tables := e.tables.filter (fun p => p.fst != h) }
  else Except.error ErrKind.UnknownHandle

/-- Modelled from the spec: the void-returning face of `close_table` called
by the bridge; a failure is turned into a logged warning, never a crash. -/
def closeTable (e : Engine) (h : Nat) : Engine :=
  match closeTableCore e h with
  | Except.ok e' => e'
  | Except.error k => logFail e Severity.warn k

/-- Modelled from the spec: the result-typed core of the Rust engine function
`insert_row` (implementation not in the visible sources).  Validates the
handle and the length, then appends exactly `len` bytes of `row` to the
table's storage; `sOk` is the environment input telling whether the storage
backend accepts the append. -/
def insertRowCore (e : Engine) (h : Nat) (row : List Nat) (len : Nat)
    (sOk : Bool) : Except ErrKind Engine :=
  match lookupTable e h with
  | none => Except.error ErrKind.UnknownHandle
  | some ts =>
    if len = 0 ∨ e.maxRowLen < len then Except.error ErrKind.InvalidRow
    else if sOk then
      Except.ok { e with
        tables := updateTable e.tables h { ts with rows := ts.rows ++ [row.take len] } }
    else Except.error ErrKind.StorageFailure

/-- Modelled from the spec: the void-returning face of `insert_row` called by
the bridge; a failure is turned into a logged error, never a crash. -/
def insertRow (e : Engine) (h : Nat) (row : List Nat) (len : Nat)
    (sOk : Bool) : Engine :=
  match insertRowCore e h row len sOk with
  | Except.ok e' => e'
  | Except.error k => logFail e Severity.error k

/-- Shallow embedding of `ha_yydb_core_init` from src/src/bridge.cc: it calls
`rust_init` and returns the constant status 0, whatever happened inside. -/
def haYydbCoreInit (ok : Bool) (e : Engine) : Int × Engine :=
  (0, rustInit ok e)

/-- Shallow embedding of `ha_yydb_core_deinit` from src/src/bridge.cc: it
calls `rust_deinit` and returns the constant status 0. -/
def haYydbCoreDeinit (e : Engine) : Int × Engine :=
  (0, rustDeinit e)

/-- Shallow embedding of `ha_yydb_open_table` from src/src/bridge.cc: wraps
the name and forwards it to the engine's `open_table`. -/
def haYydbOpenTable (e : Engine) (name : String) : Nat × Engine :=
  openTableCore e name

/-- Shallow embedding of `ha_yydb_close_table` from src/src/bridge.cc:
forwards the handle to the engine's `close_table`, returning nothing. -/
def haYydbCloseTable (e : Engine) (h : Nat) : Engine :=
  closeTable e h

/-- Shallow embedding of `ha_yydb_insert_row` from src/src/bridge.cc:
forwards table id, row bytes and length to the engine's `insert_row`.  The
C++ cast from `const unsigned char*` to `const uint8_t*` relabels the same
pointer between two 8-bit unsigned types and is the identity on the byte
sequence, so it does not appear in the embedding. -/
def haYydbInsertRow (e : Engine) (h : Nat) (row : List Nat) (len : Nat)
    (sOk : Bool) : Engine :=
  insertRow e h row len sOk

/-- A borrowed string as seen across the bridge: a byte sequence; its size is
the byte length (the invariant of the rust Str fat pointer). -/
structure RustStr where
  data : List Nat
deriving DecidableEq

/-- Byte length of a borrowed string. -/
def RustStr.size (s : RustStr) : Nat := s.data.length

/-- The log record handed to the sink: a level and the message bytes. -/
structure RawLogRecord where
  level : Int
  bytes : List Nat
deriving DecidableEq

/-- Modelled from the spec: the Rust sink function `mysql_log_write_raw`
(implementation not in the visible sources).  It receives a level, a pointer
to message bytes and a byte count, and hands the record made of the level and
the first `size` bytes to the sink. -/
def mysqlLogWriteRaw (level : Int) (data : List Nat) (size : Nat) : RawLogRecord :=
  { level := level, bytes := data.take size }

/-- Shallow embedding of `mysql_log_write` from src/src/bridge.cc: forwards
the level, the data pointer and the size of the message to the raw sink. -/
def mysqlLogWrite (level : Int) (msg : RustStr) : RawLogRecord :=
  mysqlLogWriteRaw level msg.data msg.size

/-- A host-visible boundary operation, for reasoning about call sequences. -/
inductive HostOp
  | openT (name : String)
  | closeT (h : Nat)
  | insertT (h : Nat) (row : List Nat) (len : Nat) (sOk : Bool)

/-- One boundary call: the successor engine state, together with the handle
returned when the call was an open. -/
def stepOp (e : Engine) (op : HostOp) : Engine × Option Nat :=
  match op with
  | HostOp.openT name =>
    ((haYydbOpenTable e name).snd, some (haYydbOpenTable e name).fst)
  | HostOp.closeT h => (haYydbCloseTable e h, none)
  | HostOp.insertT h row len sOk => (haYydbInsertRow e h row len sOk, none)

/-- The handles returned by the open calls of a call sequence, in order. -/
def issuedHandles (e : Engine) : List HostOp → List Nat
  | [] => []
  | op :: rest =>
    (stepOp e op).snd.toList ++ issuedHandles (stepOp e op).fst rest

/-- The engine state as freshly loaded, before any initialisation. -/
def engine0 : Engine :=
  { lifecycle := Lifecycle.Uninit
    nextHandle := 1
    tables := []
    log := []
    maxRowLen := 65535 }

/-- A running engine with one open table (handle 1), used as a concrete
evaluation point. -/
def engineR : Engine :=
  { lifecycle := Lifecycle.Running
    nextHandle := 2
    tables := [(1, { name := "t1", rows := [] })]
    log := []
    maxRowLen := 65535 }

/-- C1 counterexample: started from the freshly loaded state with failing
subsystem construction, initialisation fails (the engine core reports
InitFailure and the global state stays Uninit), yet `ha_yydb_core_init`
still returns 0, refuting the claimed non-zero return on failure. -/
theorem core_init_zero_despite_failure :
    rustInitCore false engine0 = Except.error ErrKind.InitFailure ∧
    (haYydbCoreInit false engine0).fst = 0 ∧
    (haYydbCoreInit false engine0).snd.lifecycle = Lifecycle.Uninit := by
  refine ⟨?_, rfl, ?_⟩ <;> rfl

/-- C1 (amended): `ha_yydb_core_init` returns status 0 on every call, even
when initialisation fails; a failed subsystem construction leaves the global
state Uninit (rollback, not half-initialised) and logs the failure instead of
reflecting it in the return value. -/
theorem core_init_zero_and_rollback (ok : Bool) (e : Engine) :
    (haYydbCoreInit ok e).fst = 0 ∧
    (rustInitCore ok e = Except.error ErrKind.InitFailure →
      (haYydbCoreInit ok e).snd.lifecycle = Lifecycle.Uninit ∧
      (haYydbCoreInit ok e).snd.log =
        e.log ++ [(Severity.error, errMsg ErrKind.InitFailure)]) := by
  refine ⟨rfl, fun hf => ?_⟩
  have h2 : rustInit ok e = logFail e Severity.error ErrKind.InitFailure := by
    unfold rustInit
    rw [hf]
  have hl : e.lifecycle = Lifecycle.Uninit := by
    by_contra hne
    unfold rustInitCore at hf
    rw [if_neg hne] at hf
    simp at hf
  constructor
  · show (rustInit ok e).lifecycle = Lifecycle.Uninit
    rw [h2]
    exact hl
  · show (rustInit ok e).log = _
    rw [h2]
    rfl

/-- C1 witness: concrete evaluation of the amended claim at the freshly
loaded state with failing subsystem construction. -/
theorem core_init_zero_and_rollback_w :
    (haYydbCoreInit false engine0).fst = 0 ∧
    (haYydbCoreInit false engine0).snd.lifecycle = Lifecycle.Uninit :=
  ⟨(core_init_zero_and_rollback false engine0).1,
   ((core_init_zero_and_rollback false engine0).2 (by rfl)).1⟩

/-- C8: `ha_yydb_core_init` and `ha_yydb_core_deinit` return status 0 on
every invocation, whatever the engine state: the outcome of the underlying
rust_init and rust_deinit calls never reaches the returned value. -/
theorem core_init_deinit_always_zero (ok : Bool) (e : Engine) :
    (haYydbCoreInit ok e).fst = 0 ∧ (haYydbCoreDeinit e).fst = 0 :=
  ⟨rfl, rfl⟩

/-- C9: the insert bridge performs no validation of its own: for every table
id, row buffer and length (length 0 included), it hands exactly the same
table id, the same row bytes and the same length to the engine's insert_row,
and its outcome is that call's outcome. -/
theorem insert_bridge_forwards (e : Engine) (h : Nat) (row : List Nat)
    (len : Nat) (sOk : Bool) :
    haYydbInsertRow e h row len sOk = insertRow e h row len sOk :=
  rfl

/-- C10: the logging bridge forwards the level unchanged and hands exactly
size bytes starting at the message data to the raw sink, so the record
reaching the sink is a function of the two arguments alone. -/
theorem log_write_forwards (level : Int) (msg : RustStr) :
    mysqlLogWrite level msg = { level := level, bytes := msg.data } := by
  unfold mysqlLogWrite mysqlLogWriteRaw RustStr.size
  rw [List.take_length]

/-- C2: a failing insert or close surfaces no error to the caller (the
boundary calls are total and return only the successor engine state); the
failure is appended to the log at error or warn severity, and the table
registry is left unchanged — no partial row, no dangling handle. -/
theorem boundary_failure_logged (e : Engine) (h : Nat) (row : List Nat)
    (len : Nat) (sOk : Bool) :
    (∀ k, insertRowCore e h row len sOk = Except.error k →
      (haYydbInsertRow e h row len sOk).tables = e.tables ∧
      (haYydbInsertRow e h row len sOk).log =
        e.log ++ [(Severity.error, errMsg k)]) ∧
    (∀ k, closeTableCore e h = Except.error k →
      (haYydbCloseTable e h).tables = e.tables ∧
      (haYydbCloseTable e h).log = e.log ++ [(Severity.warn, errMsg k)]) := by
  constructor
  · intro k hk
    have hb : haYydbInsertRow e h row len sOk = logFail e Severity.error k := by
      unfold haYydbInsertRow insertRow
      rw [hk]
    rw [hb]
    exact ⟨rfl, rfl⟩
  · intro k hk
    have hb : haYydbCloseTable e h = logFail e Severity.warn k := by
      unfold haYydbCloseTable closeTable
      rw [hk]
    rw [hb]
    exact ⟨rfl, rfl⟩

/-- C2 witness: concrete evaluation on a running engine whose registry holds
only handle 1, so both calls on handle 7 fail and are logged. -/
theorem boundary_failure_logged_w :
    (haYydbInsertRow engineR 7 [1] 1 true).tables = engineR.tables ∧
    (haYydbCloseTable engineR 7).log =
      engineR.log ++ [(Severity.warn, errMsg ErrKind.UnknownHandle)] :=
  ⟨((boundary_failure_logged engineR 7 [1] 1 true).1
      ErrKind.UnknownHandle (by rfl)).1,
   ((boundary_failure_logged engineR 7 [1] 1 true).2
      ErrKind.UnknownHandle (by rfl)).2⟩

/-- C3: on an open handle, an insert whose length is zero or exceeds the
configured maximum fails with InvalidRow, and the boundary call leaves the
table registry — hence every table's storage — unchanged. -/
theorem insert_invalid_length (e : Engine) (ts : TableState) (h : Nat)
    (row : List Nat) (len : Nat) (sOk : Bool)
    (hopen : lookupTable e h = some ts)
    (hlen : len = 0 ∨ e.maxRowLen < len) :
    insertRowCore e h row len sOk = Except.error ErrKind.InvalidRow ∧
    (haYydbInsertRow e h row len sOk).tables = e.tables := by
  have hcore : insertRowCore e h row len sOk = Except.error ErrKind.InvalidRow := by
    unfold insertRowCore
    rw [hopen]
    exact if_pos hlen
  refine ⟨hcore, ?_⟩
  unfold haYydbInsertRow insertRow
  rw [hcore]
  rfl

/-- C3 witness: concrete evaluation of a zero-length insert on the open
handle 1 of a running engine. -/
theorem insert_invalid_length_w :
    insertRowCore engineR 1 [] 0 true = Except.error ErrKind.InvalidRow ∧
    (haYydbInsertRow engineR 1 [] 0 true).tables = engineR.tables :=
  insert_invalid_length engineR { name := "t1", rows := [] } 1 [] 0 true
    (by rfl) (Or.inl rfl)

/-- C4: a handle that is not currently open is rejected by both insert and
close with UnknownHandle; both calls stay total, returning an engine state
instead of crashing. -/
theorem unknown_handle_rejected (e : Engine) (h : Nat) (row : List Nat)
    (len : Nat) (sOk : Bool) (hmiss : lookupTable e h = none) :
    insertRowCore e h row len sOk = Except.error ErrKind.UnknownHandle ∧
    closeTableCore e h = Except.error ErrKind.UnknownHandle := by
  constructor
  · unfold insertRowCore
    rw [hmiss]
  · unfold closeTableCore
    rw [hmiss]
    rfl

/-- C4 witness: concrete evaluation at a never-issued handle of the freshly
loaded engine. -/
theorem unknown_handle_rejected_w :
    insertRowCore engine0 5 [1, 2] 2 true = Except.error ErrKind.UnknownHandle ∧
    closeTableCore engine0 5 = Except.error ErrKind.UnknownHandle :=
  unknown_handle_rejected engine0 5 [1, 2] 2 true (by rfl)

/-- Registry lookup after updating a present key finds the new state. -/
theorem lookup_updateTable (tbl : List (Nat × TableState)) (h : Nat)
    (ts' : TableState)
    (hmem : (tbl.find? (fun p => p.fst == h)).isSome = true) :
    ((updateTable tbl h ts').find? (fun p => p.fst == h)).map (fun p => p.snd) =
      some ts' := by
  induction tbl with
  | nil => simp [List.find?] at hmem
  | cons a rest ih =>
    by_cases ha : (a.fst == h) = true
    · simp [updateTable, List.find?, ha]
    · have hrest : (rest.find? (fun p => p.fst == h)).isSome = true := by
        simpa [List.find?, ha] using hmem
      simpa [updateTable, List.find?, ha] using ih hrest

/-- Equation of the insert core on an open handle. -/
theorem insertRowCore_open (e : Engine) (ts : TableState) (h : Nat)
    (row : List Nat) (len : Nat) (sOk : Bool)
    (hopen : lookupTable e h = some ts) :
    insertRowCore e h row len sOk =
      if len = 0 ∨ e.maxRowLen < len then Except.error ErrKind.InvalidRow
      else if sOk then
        Except.ok { e with
          tables := updateTable e.tables h { ts with rows := ts.rows ++ [row.take len] } }
      else Except.error ErrKind.StorageFailure := by
  unfold insertRowCore
  rw [hopen]

/-- C5: a row accepted on an open handle is stored byte for byte: after a
successful insert of `b` with its true length, looking the table up again
yields the previous rows with `b` appended unchanged. -/
theorem insert_round_trip (e e' : Engine) (ts : TableState) (h : Nat)
    (b : List Nat) (sOk : Bool)
    (hopen : lookupTable e h = some ts)
    (hacc : insertRowCore e h b b.length sOk = Except.ok e') :
    lookupTable e' h = some { ts with rows := ts.rows ++ [b] } := by
  have hmem : (e.tables.find? (fun p => p.fst == h)).isSome = true := by
    unfold lookupTable at hopen
    cases hf : e.tables.find? (fun p => p.fst == h) with
    | none => rw [hf] at hopen; exact Option.noConfusion hopen
    | some a => rfl
  rw [insertRowCore_open e ts h b b.length sOk hopen] at hacc
  by_cases hlen : b.length = 0 ∨ e.maxRowLen < b.length
  · rw [if_pos hlen] at hacc
    exact Except.noConfusion hacc
  · rw [if_neg hlen] at hacc
    cases sOk with
    | false =>
      exact Except.noConfusion
        (show Except.error ErrKind.StorageFailure = Except.ok e' from hacc)
    | true =>
      have he := Except.ok.inj
        (show Except.ok { e with
            tables := updateTable e.tables h
              { ts with rows := ts.rows ++ [b.take b.length] } } =
          Except.ok e' from hacc)
      rw [← he]
      have hu := lookup_updateTable e.tables h
        { ts with rows := ts.rows ++ [b.take b.length] } hmem
      unfold lookupTable
      simpa [List.take_length] using hu

/-- C5 witness: inserting the concrete row 10, 20, 30 on the open handle 1
of a running engine stores it byte for byte. -/
theorem insert_round_trip_w :
    lookupTable
      { lifecycle := Lifecycle.Running
        nextHandle := 2
        tables := [(1, { name := "t1", rows := [[10, 20, 30]] })]
        log := []
        maxRowLen := 65535 } 1 =
      some { name := "t1", rows := [[10, 20, 30]] } := by
  have h := insert_round_trip engineR
    { lifecycle := Lifecycle.Running
      nextHandle := 2
      tables := [(1, { name := "t1", rows := [[10, 20, 30]] })]
      log := []
      maxRowLen := 65535 }
    { name := "t1", rows := [] } 1 [10, 20, 30] true (by rfl) (by rfl)
  simpa using h

/-- The close bridge call never changes the fresh-handle counter. -/
theorem closeTable_nextHandle (e : Engine) (h : Nat) :
    (haYydbCloseTable e h).nextHandle = e.nextHandle := by
  unfold haYydbCloseTable closeTable
  cases hc : closeTableCore e h with
  | ok e' =>
    have he : e'.nextHandle = e.nextHandle := by
      unfold closeTableCore at hc
      by_cases hs : (lookupTable e h).isSome = true
      · rw [if_pos hs] at hc
        have := Except.ok.inj hc
        rw [← this]
      · rw [if_neg hs] at hc
        exact Except.noConfusion hc
    exact he
  | error k => rfl

/-- The insert bridge call never changes the fresh-handle counter. -/
theorem insertRow_nextHandle (e : Engine) (h : Nat) (row : List Nat)
    (len : Nat) (sOk : Bool) :
    (haYydbInsertRow e h row len sOk).nextHandle = e.nextHandle := by
  unfold haYydbInsertRow insertRow
  cases hc : insertRowCore e h row len sOk with
  | ok e' =>
    have he : e'.nextHandle = e.nextHandle := by
      cases hl : lookupTable e h with
      | none =>
        unfold insertRowCore at hc
        rw [hl] at hc
        exact Except.noConfusion hc
      | some ts =>
        rw [insertRowCore_open e ts h row len sOk hl] at hc
        by_cases hlen : len = 0 ∨ e.maxRowLen < len
        · rw [if_pos hlen] at hc
          exact Except.noConfusion hc
        · rw [if_neg hlen] at hc
          cases sOk with
          | false =>
            exact Except.noConfusion
              (show Except.error ErrKind.StorageFailure = Except.ok e' from hc)
          | true =>
            have h2 := Except.ok.inj
              (show Except.ok { e with
                  tables := updateTable e.tables h
                    { ts with rows := ts.rows ++ [row.take len] } } =
                Except.ok e' from hc)
            rw [← h2]
    exact he
  | error k => rfl

/-- Every handle issued along a call sequence is at least the fresh-handle
counter of the starting state. -/
theorem issuedHandles_lb (ops : List HostOp) :
    ∀ e : Engine, ∀ x ∈ issuedHandles e ops, e.nextHandle ≤ x := by
  induction ops with
  | nil =>
    intro e x hx
    simp [issuedHandles] at hx
  | cons op rest ih =>
    intro e x hx
    cases op with
    | openT name =>
      rcases List.mem_append.mp hx with hx | hx
      · have : x = e.nextHandle := by simpa [stepOp, haYydbOpenTable, openTableCore] using hx
        exact le_of_eq this.symm
      · have h2 : e.nextHandle + 1 ≤ x := ih _ x hx
        omega
    | closeT h =>
      rcases List.mem_append.mp hx with hx | hx
      · simp [stepOp] at hx
      · have h2 : (haYydbCloseTable e h).nextHandle ≤ x := ih _ x hx
        rwa [closeTable_nextHandle] at h2
    | insertT h row len sOk =>
      rcases List.mem_append.mp hx with hx | hx
      · simp [stepOp] at hx
      · have h2 : (haYydbInsertRow e h row len sOk).nextHandle ≤ x := ih _ x hx
        rwa [insertRow_nextHandle] at h2

/-- C6: along every call sequence within one engine run, the handles
returned by the open calls are pairwise strictly increasing in call order:
each open returns a handle strictly greater than every earlier one and no
handle value is ever reused, so a stale handle from a closed table can never
alias a later table. -/
theorem open_handles_strictly_increasing (ops : List HostOp) (e : Engine) :
    List.Pairwise (fun a b => a < b) (issuedHandles e ops) := by
  induction ops generalizing e with
  | nil => exact List.Pairwise.nil
  | cons op rest ih =>
    cases op with
    | openT name =>
      refine List.Pairwise.cons ?_ (ih _)
      intro b hb
      have h2 : e.nextHandle + 1 ≤ b := issuedHandles_lb rest _ b hb
      show e.nextHandle < b
      omega
    | closeT h => exact ih _
    | insertT h row len sOk => exact ih _
